import Mathlib

/-!
# Verification of the go-locker distributed locking library

Shallow embedding of the core of `da440dil/go-locker`:

* the in-memory gateway (`gateway/memory/memory.go`): a map from keys to
  `(value, expiresAt)` items, with `Set`/`Del` operations;
* the retry loop of `Lock.Lock` and the `Lock.Unlock` operation
  (`locker.go`), modelled with explicit traces for the gateway responses
  and the cancellation signal;
* the jittered retry delay (`delay.go`);
* the classification by the Redis gateway of the lock script result
  (`gateway/redis/redis.go`).

Time is modelled as Go models it: instants and durations are integer
nanosecond counts (`Int`), and TTL values exchanged with gateways are
integer millisecond counts.  Integer division in Go truncates toward
zero, which on `Int` is `Int.div`.
-/

namespace GoLocker

/-! ## Memory gateway (`gateway/memory/memory.go`) -/

/-- Nanoseconds per millisecond, the ratio `time.Millisecond` in Go. -/
def nsPerMs : Int := 1000000

/-- Function `durationToMilliseconds` from `gateway/memory/memory.go`:
`int(duration / time.Millisecond)`.  Go division truncates toward zero,
hence `Int.div`. -/
def durationToMilliseconds (duration : Int) : Int :=
  Int.tdiv duration nsPerMs

/-- Function `millisecondsToDuration` from `gateway/memory/memory.go`:
`time.Duration(ttl) * time.Millisecond`. -/
def millisecondsToDuration (ttl : Int) : Int :=
  ttl * nsPerMs

/-- An entry of the memory storage: `item` in `gateway/memory/memory.go`.
`expiresAt` is an absolute instant in nanoseconds. -/
structure Item where
  value : String
  expiresAt : Int
deriving DecidableEq, Repr

/-- The memory storage map `items map[string]*item`, modelled as a
function map with Go map get/insert/delete semantics. -/
def Store : Type := String → Option Item

/-- Go map indexing `s.items[key]`. -/
def Store.find (s : Store) (key : String) : Option Item := s key

/-- Go map assignment `s.items[key] = it`. -/
def Store.insert (s : Store) (key : String) (it : Item) : Store :=
  fun k => if k = key then some it else s k

/-- Go `delete(s.items, key)`. -/
def Store.erase (s : Store) (key : String) : Store :=
  fun k => if k = key then none else s k

/-- The empty storage. -/
def Store.empty : Store := fun _ => none

/-- Go method `storage.Set` from `gateway/memory/memory.go`, lines 46–67.  `now` is
the instant `time.Now()` observed inside the call.  Returns the success
flag, the TTL in milliseconds, and the storage after the call. -/
def memSet (s : Store) (key value : String) (ttl : Int) (now : Int) :
    Bool × Int × Store :=
  match s.find key with
  | some v =>
    let exp := v.expiresAt - now
    if 0 < exp then
      if v.value = value then
        (true, ttl, s.insert key ⟨v.value, now + millisecondsToDuration ttl⟩)
      else
        (false, durationToMilliseconds exp, s)
    else
      (true, ttl, s.insert key ⟨value, now + millisecondsToDuration ttl⟩)
  | none => (true, ttl, s.insert key ⟨value, now + millisecondsToDuration ttl⟩)

/-- Go method `storage.Del` from `gateway/memory/memory.go`, lines 69–79.  Note the
source compares only the stored value against `value`; it never looks at
`expiresAt`. -/
def memDel (s : Store) (key value : String) : Bool × Store :=
  match s.find key with
  | some v =>
    if v.value = value then (true, s.erase key) else (false, s)
  | none => (false, s)

/-- A live (unexpired) entry is present for `key` at instant `now`. -/
def liveEntry (s : Store) (key : String) (now : Int) : Option Item :=
  match s.find key with
  | some v => if 0 < v.expiresAt - now then some v else none
  | none => none

/-- A concrete storage holding one entry, used by witnesses. -/
def storeOne (key : String) (it : Item) : Store :=
  Store.insert Store.empty key it

/-! ## Lock engine (`locker.go`)

The retry loop of `Lock.Lock` mixes gateway calls, sleeps and a
cancellation signal.  We embed it with explicit traces: `gw n` is the
result the gateway returns for the `n`-th remaining `Set` call, and
`cancel n` tells whether the cancellation signal fires during the sleep
that follows that call.  The error type `E` is abstract: the code never
inspects errors, it returns them verbatim. -/

/-- The result of one `gateway.Set` call, the triple
`(ok, ttl, err)` of the `Gateway` interface. -/
structure SetResult (E : Type) where
  ok : Bool
  ttl : Int
  err : Option E
deriving DecidableEq

/-- The observable outcome of one `Lock.Lock()` call: the returned
triple `(ok, ttl, err)`, the token field of the handle after the call, the
number of `gateway.Set` calls made and the number of waits on the retry
timer entered. -/
structure LockOutcome (E : Type) where
  ok : Bool
  ttl : Int
  err : Option E
  token : String
  setCalls : Nat
  sleeps : Nat
deriving DecidableEq

/-- Book-keeping for one more round of the retry loop: one more
gateway call and one more sleep around the recursive outcome. -/
def retried {E : Type} (r : LockOutcome E) : LockOutcome E :=
  ⟨r.ok, r.ttl, r.err, r.token, r.setCalls + 1, r.sleeps + 1⟩

/-- The attempt loop of `Lock.Lock` (`locker.go`, lines 256–288).
`token` is the local token variable, `prevToken` the token field of the
handle at entry, and the last argument the value of `counter`.  The Go
`counter <= 0` test is the `0` case here; `counter` starts at the
validated `retryCount ≥ 0`. -/
def lockLoop {E : Type} (gw : Nat → SetResult E) (cancel : Nat → Bool)
    (token prevToken : String) : Nat → LockOutcome E
  | 0 =>
    match (gw 0).err with
    | some e => ⟨false, (gw 0).ttl, some e, prevToken, 1, 0⟩
    | none =>
      if (gw 0).ok then ⟨true, (gw 0).ttl, none, token, 1, 0⟩
      else ⟨false, (gw 0).ttl, none, "", 1, 0⟩
  | counter + 1 =>
    match (gw 0).err with
    | some e => ⟨false, (gw 0).ttl, some e, prevToken, 1, 0⟩
    | none =>
      if (gw 0).ok then ⟨true, (gw 0).ttl, none, token, 1, 0⟩
      else if cancel 0 then ⟨false, (gw 0).ttl, none, prevToken, 1, 1⟩
      else
        retried (lockLoop (fun n => gw (n + 1)) (fun n => cancel (n + 1))
          token prevToken counter)

/-- Go method `Lock.Lock` (`locker.go`, lines 243–288).  `gen` is the outcome of
`newToken()`, consulted only when the stored token of the handle
`prevToken` is empty. -/
def lockFn {E : Type} (gen : Except E String) (gw : Nat → SetResult E)
    (cancel : Nat → Bool) (prevToken : String) (retryCount : Nat) :
    LockOutcome E :=
  if prevToken = "" then
    match gen with
    | .error e => ⟨false, 0, some e, prevToken, 0, 0⟩
    | .ok t => lockLoop gw cancel t prevToken retryCount
  else
    lockLoop gw cancel prevToken prevToken retryCount

/-- Go method `Lock.Unlock` (`locker.go`, lines 293–304).  `del key token` is
the reply of the gateway.  Returns the `(removed, err)` pair, the token
field of the handle after the call, and the number of `gateway.Del`
calls. -/
def unlockFn {E : Type} (del : String → String → Bool × Option E)
    (key prevToken : String) : (Bool × Option E) × String × Nat :=
  if prevToken = "" then ((false, none), prevToken, 0)
  else (del key prevToken, "", 1)

/-! ## Jittered retry delay (`delay.go`) and the Redis gateway
(`gateway/redis/redis.go`) -/

/-- The Go call `rnd.Intn(n)`: a uniform draw in `[0, n)`.  The randomness is
modelled by an arbitrary draw `u : Nat` reduced modulo `n`, which
realises exactly the values `0, …, n − 1`. -/
def rndIntn (u : Nat) (n : Int) : Int := (u : Int) % n

/-- Function `newDelay` from `delay.go`.  The source swaps
`retryDelay, retryJitter = retryJitter, retryDelay` when
`retryDelay < retryJitter`; the swap is inlined into the two branches
here.  In each branch the result is
`rnd.Intn(max - min + 1) + min` with `min = delay - jitter` and
`max = delay + jitter` after the swap. -/
def newDelay (retryDelay retryJitter : Int) (u : Nat) : Int :=
  if retryJitter = 0 then retryDelay
  else if retryDelay < retryJitter then
    rndIntn u ((retryJitter + retryDelay) - (retryJitter - retryDelay) + 1)
      + (retryJitter - retryDelay)
  else
    rndIntn u ((retryDelay + retryJitter) - (retryDelay - retryJitter) + 1)
      + (retryDelay - retryJitter)

/-- Values a Redis script run can hand to the Go type assertion in
`Gateway.Set`: an `int64`, or a value of some other shape. -/
inductive RedisValue where
  | int (t : Int)
  | str (s : String)
  | nil
deriving DecidableEq

/-- Protocol errors of the Redis gateway. -/
inductive RedisError where
  | invalidResponse
  | keyNameClash
deriving DecidableEq

/-- Classification of the lock script result in `Gateway.Set`
(`gateway/redis/redis.go`, lines 54–74), for a run that returned
without transport error: a non-integer fails the `res.(int64)`
assertion (ErrInvalidResponse); `-1` means the key exists without TTL
(ErrKeyNameClash); `-2` is the sentinel used by the script for
installed-or-refreshed; any other integer is the remaining TTL of a
contended key. -/
def redisSetClassify (ttl : Int) (res : RedisValue) :
    Except RedisError (Bool × Int) :=
  match res with
  | .int t =>
    if t = -1 then .error .keyNameClash
    else if t = -2 then .ok (true, ttl)
    else .ok (false, t)
  | _ => .error .invalidResponse

/-! ## Theorems about the memory gateway -/

/-- C1: for the memory backend, `Set(key, value, ttl)` satisfies the
three-case gateway contract.  If no live entry exists for `key` it
installs `(value, ttl)` and succeeds returning `ttl`; if a live entry
with the same value exists it refreshes the expiration to `ttl` and
succeeds returning `ttl`; if a live entry with a different value exists
it leaves the storage unchanged and fails returning the remaining TTL in
milliseconds. -/
theorem memory_set_three_case_contract
    (s : Store) (key value : String) (ttl now : Int) :
    (liveEntry s key now = none →
      memSet s key value ttl now =
        (true, ttl,
          s.insert key ⟨value, now + millisecondsToDuration ttl⟩)) ∧
    (∀ v, liveEntry s key now = some v → v.value = value →
      memSet s key value ttl now =
        (true, ttl,
          s.insert key ⟨value, now + millisecondsToDuration ttl⟩)) ∧
    (∀ v, liveEntry s key now = some v → v.value ≠ value →
      memSet s key value ttl now =
        (false, durationToMilliseconds (v.expiresAt - now), s)) := by
  refine ⟨?_, ?_, ?_⟩
  · intro hnone
    unfold liveEntry Store.find at hnone
    unfold memSet Store.find
    cases hfind : s key with
    | none => simp [hfind]
    | some v =>
      rw [hfind] at hnone
      dsimp only at hnone
      by_cases hexp : 0 < v.expiresAt - now
      · simp [hexp] at hnone
      · simp [hfind, hexp]
  · intro v hlive hval
    unfold liveEntry Store.find at hlive
    unfold memSet Store.find
    cases hfind : s key with
    | none => simp [hfind] at hlive
    | some w =>
      rw [hfind] at hlive
      dsimp only at hlive
      by_cases hexp : 0 < w.expiresAt - now
      · rw [if_pos hexp] at hlive
        obtain rfl : w = v := Option.some.inj hlive
        simp [hfind, hexp, hval]
      · simp [hexp] at hlive
  · intro v hlive hval
    unfold liveEntry Store.find at hlive
    unfold memSet Store.find
    cases hfind : s key with
    | none => simp [hfind] at hlive
    | some w =>
      rw [hfind] at hlive
      dsimp only at hlive
      by_cases hexp : 0 < w.expiresAt - now
      · rw [if_pos hexp] at hlive
        obtain rfl : w = v := Option.some.inj hlive
        simp [hfind, hexp, hval]
      · simp [hexp] at hlive

/-- Witness for C1: the three cases evaluated on concrete storages. -/
theorem memory_set_three_case_contract_witness :
    (memSet Store.empty "k" "A" 100 0 =
      (true, 100, Store.insert Store.empty "k" ⟨"A", 100000000⟩)) ∧
    (memSet (storeOne "k" ⟨"A", 50000000⟩) "k" "A" 100 0 =
      (true, 100,
        (storeOne "k" ⟨"A", 50000000⟩).insert "k" ⟨"A", 100000000⟩)) ∧
    (memSet (storeOne "k" ⟨"A", 50000000⟩) "k" "B" 100 0 =
      (false, 50, storeOne "k" ⟨"A", 50000000⟩)) := by
  refine ⟨?_, ?_, ?_⟩
  · have h := (memory_set_three_case_contract Store.empty "k" "A" 100 0).1
      (by rfl)
    simpa [millisecondsToDuration, nsPerMs] using h
  · have h := (memory_set_three_case_contract
      (storeOne "k" ⟨"A", 50000000⟩) "k" "A" 100 0).2.1
      ⟨"A", 50000000⟩ (by rfl) (by rfl)
    simpa [millisecondsToDuration, nsPerMs] using h
  · have h := (memory_set_three_case_contract
      (storeOne "k" ⟨"A", 50000000⟩) "k" "B" 100 0).2.2
      ⟨"A", 50000000⟩ (by rfl) (by simp)
    simpa [durationToMilliseconds, nsPerMs] using h


/-! ## Theorems about Del and the contention TTL -/

/-- C3 counterexample: the source `storage.Del` never consults
`expiresAt`.  On a storage whose only entry expired at instant 5,
observed at instant 10, `Del` with the matching value still removes the
entry and reports `true`, although no live entry exists. -/
theorem memory_del_expired_cex :
    liveEntry (storeOne "k" ⟨"v", 5⟩) "k" 10 = none ∧
    (memDel (storeOne "k" ⟨"v", 5⟩) "k" "v").1 = true ∧
    (memDel (storeOne "k" ⟨"v", 5⟩) "k" "v").2 "k" = none := by
  decide

/-- C3 amended: for the memory backend, `Del(key, value)` removes the
entry and returns `(true, ok)` iff an entry — live or expired, as long
as the sweeper has not removed it — exists under `key` storing exactly
`value`; otherwise it returns `(false, ok)` and leaves the storage
unchanged.  Expiry is not consulted by `Del`. -/
theorem memory_del_contract (s : Store) (key value : String) :
    (∀ v, s.find key = some v → v.value = value →
        memDel s key value = (true, s.erase key)) ∧
    (∀ v, s.find key = some v → v.value ≠ value →
        memDel s key value = (false, s)) ∧
    (s.find key = none → memDel s key value = (false, s)) := by
  refine ⟨?_, ?_, ?_⟩
  · intro v hfind hval
    unfold memDel
    rw [hfind]
    simp [hval]
  · intro v hfind hval
    unfold memDel
    rw [hfind]
    simp [hval]
  · intro hfind
    unfold memDel
    rw [hfind]

/-- Witness for the amended C3: all three cases on concrete storages. -/
theorem memory_del_contract_witness :
    memDel (storeOne "k" ⟨"v", 5⟩) "k" "v" =
      (true, (storeOne "k" ⟨"v", 5⟩).erase "k") ∧
    memDel (storeOne "k" ⟨"v", 5⟩) "k" "w" = (false, storeOne "k" ⟨"v", 5⟩) ∧
    memDel Store.empty "k" "v" = (false, Store.empty) := by
  refine ⟨?_, ?_, ?_⟩
  · exact (memory_del_contract (storeOne "k" ⟨"v", 5⟩) "k" "v").1
      ⟨"v", 5⟩ (by decide) (by decide)
  · exact (memory_del_contract (storeOne "k" ⟨"v", 5⟩) "k" "w").2.1
      ⟨"v", 5⟩ (by decide) (by decide)
  · exact (memory_del_contract Store.empty "k" "v").2.2 (by decide)

/-- C4 counterexample: with an entry that has 500000 ns (half a
millisecond) of life left, `Set` by a different value fails and reports
TTL `0` milliseconds — not a positive integer, because
`durationToMilliseconds` truncates. -/
theorem memory_set_contention_ttl_positive_cex :
    liveEntry (storeOne "k" ⟨"A", 500000⟩) "k" 0 = some ⟨"A", 500000⟩ ∧
    (memSet (storeOne "k" ⟨"A", 500000⟩) "k" "B" 100 0).1 = false ∧
    (memSet (storeOne "k" ⟨"A", 500000⟩) "k" "B" 100 0).2.1 = 0 := by
  decide

/-- C4 amended: when the memory backend function `Set` fails with contention
against an entry installed at instant `t0` with TTL `ttl0` ms, observed
at `now ≥ t0`, the returned TTL is a *nonnegative* integer number of
milliseconds (zero is possible when less than one millisecond remains),
at most the remaining lifetime of the entry and at most the TTL with
which the entry was installed. -/
theorem memory_set_contention_ttl_bounds
    (s : Store) (key value w : String) (ttl ttl0 t0 now : Int)
    (hfind : s.find key = some ⟨w, t0 + millisecondsToDuration ttl0⟩)
    (hinstall : t0 ≤ now)
    (hlive : 0 < t0 + millisecondsToDuration ttl0 - now)
    (hval : w ≠ value) :
    memSet s key value ttl now =
      (false, durationToMilliseconds (t0 + millisecondsToDuration ttl0 - now),
        s) ∧
    0 ≤ durationToMilliseconds (t0 + millisecondsToDuration ttl0 - now) ∧
    durationToMilliseconds (t0 + millisecondsToDuration ttl0 - now) * nsPerMs
      ≤ t0 + millisecondsToDuration ttl0 - now ∧
    durationToMilliseconds (t0 + millisecondsToDuration ttl0 - now) ≤ ttl0 := by
  set exp : Int := t0 + millisecondsToDuration ttl0 - now with hexp
  have hns : (0:Int) < nsPerMs := by norm_num [nsPerMs]
  have hexp0 : 0 ≤ exp := le_of_lt hlive
  have htdiv : durationToMilliseconds exp = exp / nsPerMs := by
    unfold durationToMilliseconds
    exact Int.tdiv_eq_ediv hexp0 (le_of_lt hns)
  refine ⟨?_, ?_, ?_, ?_⟩
  · unfold memSet
    rw [hfind]
    dsimp only
    rw [← hexp]
    rw [if_pos hlive, if_neg hval]
  · rw [htdiv]
    exact Int.ediv_nonneg hexp0 (le_of_lt hns)
  · rw [htdiv]
    exact Int.ediv_mul_le exp (ne_of_gt hns)
  · rw [htdiv]
    have hle : exp ≤ ttl0 * nsPerMs := by
      unfold millisecondsToDuration at hexp
      omega
    calc exp / nsPerMs ≤ ttl0 * nsPerMs / nsPerMs := Int.ediv_le_ediv hns hle
      _ = ttl0 := Int.mul_ediv_cancel ttl0 (ne_of_gt hns)

/-- Witness for the amended C4: entry installed at 0 with TTL 200 ms,
contended at instant 50 ms; the reported TTL is 150 ms. -/
theorem memory_set_contention_ttl_bounds_witness :
    memSet (storeOne "k" ⟨"A", 200000000⟩) "k" "B" 100 50000000 =
      (false, 150, storeOne "k" ⟨"A", 200000000⟩) := by
  have h := memory_set_contention_ttl_bounds (storeOne "k" ⟨"A", 200000000⟩)
    "k" "B" "A" 100 200 0 50000000 (by decide) (by decide) (by decide)
    (by decide)
  have e : durationToMilliseconds (0 + millisecondsToDuration 200 - 50000000)
      = 150 := by decide
  rw [e] at h
  exact h.1


/-! ## Theorems about the lock engine -/

/-! Unfolding equations for `lockLoop`, one per branch of the source
loop body. -/

theorem lockLoop_zero_err {E : Type} {gw : Nat → SetResult E}
    {cancel : Nat → Bool} {token prevToken : String} {e : E}
    (he : (gw 0).err = some e) :
    lockLoop gw cancel token prevToken 0 =
      ⟨false, (gw 0).ttl, some e, prevToken, 1, 0⟩ := by
  unfold lockLoop; simp [he]

theorem lockLoop_zero_ok {E : Type} {gw : Nat → SetResult E}
    {cancel : Nat → Bool} {token prevToken : String}
    (he : (gw 0).err = none) (hok : (gw 0).ok = true) :
    lockLoop gw cancel token prevToken 0 =
      ⟨true, (gw 0).ttl, none, token, 1, 0⟩ := by
  unfold lockLoop; simp [he, hok]

theorem lockLoop_zero_exhaust {E : Type} {gw : Nat → SetResult E}
    {cancel : Nat → Bool} {token prevToken : String}
    (he : (gw 0).err = none) (hok : (gw 0).ok = false) :
    lockLoop gw cancel token prevToken 0 =
      ⟨false, (gw 0).ttl, none, "", 1, 0⟩ := by
  unfold lockLoop; simp [he, hok]

theorem lockLoop_succ_err {E : Type} {gw : Nat → SetResult E}
    {cancel : Nat → Bool} {token prevToken : String} {c : Nat} {e : E}
    (he : (gw 0).err = some e) :
    lockLoop gw cancel token prevToken (c + 1) =
      ⟨false, (gw 0).ttl, some e, prevToken, 1, 0⟩ := by
  unfold lockLoop; simp [he]

theorem lockLoop_succ_ok {E : Type} {gw : Nat → SetResult E}
    {cancel : Nat → Bool} {token prevToken : String} {c : Nat}
    (he : (gw 0).err = none) (hok : (gw 0).ok = true) :
    lockLoop gw cancel token prevToken (c + 1) =
      ⟨true, (gw 0).ttl, none, token, 1, 0⟩ := by
  unfold lockLoop; simp [he, hok]

theorem lockLoop_succ_cancel {E : Type} {gw : Nat → SetResult E}
    {cancel : Nat → Bool} {token prevToken : String} {c : Nat}
    (he : (gw 0).err = none) (hok : (gw 0).ok = false)
    (hc : cancel 0 = true) :
    lockLoop gw cancel token prevToken (c + 1) =
      ⟨false, (gw 0).ttl, none, prevToken, 1, 1⟩ := by
  unfold lockLoop; simp [he, hok, hc]

theorem lockLoop_succ_retry {E : Type} {gw : Nat → SetResult E}
    {cancel : Nat → Bool} {token prevToken : String} {c : Nat}
    (he : (gw 0).err = none) (hok : (gw 0).ok = false)
    (hc : cancel 0 = false) :
    lockLoop gw cancel token prevToken (c + 1) =
      retried (lockLoop (fun n => gw (n + 1)) (fun n => cancel (n + 1))
        token prevToken c) := by
  conv_lhs => unfold lockLoop
  simp [he, hok, hc]

/-- The loop makes at most `counter + 1` gateway calls and enters at
most `counter` sleeps. -/
theorem lockLoop_calls_le {E : Type} (gw : Nat → SetResult E)
    (cancel : Nat → Bool) (token prevToken : String) (counter : Nat) :
    (lockLoop gw cancel token prevToken counter).setCalls ≤ counter + 1 ∧
    (lockLoop gw cancel token prevToken counter).sleeps ≤ counter := by
  induction counter generalizing gw cancel with
  | zero =>
    cases he : (gw 0).err with
    | some e => rw [lockLoop_zero_err he]; exact ⟨le_refl 1, le_refl 0⟩
    | none =>
      cases hok : (gw 0).ok
      · rw [lockLoop_zero_exhaust he hok]; exact ⟨le_refl 1, le_refl 0⟩
      · rw [lockLoop_zero_ok he hok]; exact ⟨le_refl 1, le_refl 0⟩
  | succ c ih =>
    cases he : (gw 0).err with
    | some e => rw [lockLoop_succ_err he]; exact ⟨by dsimp only; omega, by dsimp only; omega⟩
    | none =>
      cases hok : (gw 0).ok
      · cases hc : cancel 0
        · rw [lockLoop_succ_retry he hok hc]
          obtain ⟨h1, h2⟩ := ih (fun n => gw (n + 1)) (fun n => cancel (n + 1))
          unfold retried
          exact ⟨by dsimp only; omega, by dsimp only; omega⟩
        · rw [lockLoop_succ_cancel he hok hc]; exact ⟨by dsimp only; omega, by dsimp only; omega⟩
      · rw [lockLoop_succ_ok he hok]; exact ⟨by dsimp only; omega, by dsimp only; omega⟩

/-- If the loop returns with an error, the handle token is the token
held at entry. -/
theorem lockLoop_err_token {E : Type} (gw : Nat → SetResult E)
    (cancel : Nat → Bool) (token prevToken : String) (counter : Nat)
    (h : (lockLoop gw cancel token prevToken counter).err.isSome) :
    (lockLoop gw cancel token prevToken counter).token = prevToken := by
  induction counter generalizing gw cancel with
  | zero =>
    cases he : (gw 0).err with
    | some e => rw [lockLoop_zero_err he]
    | none =>
      cases hok : (gw 0).ok
      · rw [lockLoop_zero_exhaust he hok] at h; simp at h
      · rw [lockLoop_zero_ok he hok] at h; simp at h
  | succ c ih =>
    cases he : (gw 0).err with
    | some e => rw [lockLoop_succ_err he]
    | none =>
      cases hok : (gw 0).ok
      · cases hc : cancel 0
        · rw [lockLoop_succ_retry he hok hc] at h ⊢
          unfold retried at h ⊢
          exact ih (fun n => gw (n + 1)) (fun n => cancel (n + 1)) h
        · rw [lockLoop_succ_cancel he hok hc] at h; simp at h
      · rw [lockLoop_succ_ok he hok] at h; simp at h

/-- If no cancellation ever fires and the loop returns
`(false, _, none)`, the handle token has been cleared. -/
theorem lockLoop_exhaustion_token {E : Type} (gw : Nat → SetResult E)
    (cancel : Nat → Bool) (token prevToken : String) (counter : Nat)
    (hcancel : ∀ n, cancel n = false)
    (hok : (lockLoop gw cancel token prevToken counter).ok = false)
    (herr : (lockLoop gw cancel token prevToken counter).err = none) :
    (lockLoop gw cancel token prevToken counter).token = "" := by
  induction counter generalizing gw cancel with
  | zero =>
    cases he : (gw 0).err with
    | some e => rw [lockLoop_zero_err he] at herr; simp at herr
    | none =>
      cases hk : (gw 0).ok
      · rw [lockLoop_zero_exhaust he hk]
      · rw [lockLoop_zero_ok he hk] at hok; simp at hok
  | succ c ih =>
    cases he : (gw 0).err with
    | some e => rw [lockLoop_succ_err he] at herr; simp at herr
    | none =>
      cases hk : (gw 0).ok
      · rw [lockLoop_succ_retry he hk (hcancel 0)] at hok herr ⊢
        unfold retried at hok herr ⊢
        exact ih (fun n => gw (n + 1)) (fun n => cancel (n + 1))
          (fun n => hcancel (n + 1)) hok herr
      · rw [lockLoop_succ_ok he hk] at hok; simp at hok


/-- Running the loop against a contention prefix of length `k` followed
by an erroring gateway call returns that error immediately: `k + 1`
calls and `k` sleeps in total, with the entry token kept. -/
theorem lockLoop_error_run {E : Type} (gw : Nat → SetResult E)
    (cancel : Nat → Bool) (token prevToken : String) (counter k : Nat)
    (e : E) (hk : k ≤ counter)
    (hpre : ∀ j, j < k →
      (gw j).err = none ∧ (gw j).ok = false ∧ cancel j = false)
    (herr : (gw k).err = some e) :
    lockLoop gw cancel token prevToken counter =
      ⟨false, (gw k).ttl, some e, prevToken, k + 1, k⟩ := by
  induction k generalizing gw cancel counter with
  | zero =>
    cases counter with
    | zero => rw [lockLoop_zero_err herr]
    | succ c => rw [lockLoop_succ_err herr]
  | succ k ih =>
    obtain ⟨he0, hok0, hc0⟩ := hpre 0 (Nat.succ_pos k)
    cases counter with
    | zero => omega
    | succ c =>
      rw [lockLoop_succ_retry he0 hok0 hc0]
      rw [ih (fun n => gw (n + 1)) (fun n => cancel (n + 1)) c (by omega)
        (fun j hj => hpre (j + 1) (by omega)) herr]
      rfl

/-- C5: for every `retryCount ≥ 0`, one `Lock.Lock()` call makes at
most `retryCount + 1` `gateway.Set` calls and enters at most
`retryCount` sleeps.  The loop is embedded as a total function
(`lockLoop`, structurally recursive on the strictly decreasing retry
counter), so it terminates whenever every gateway call returns. -/
theorem lock_retry_bound {E : Type} (gen : Except E String)
    (gw : Nat → SetResult E) (cancel : Nat → Bool) (prevToken : String)
    (retryCount : Nat) :
    (lockFn gen gw cancel prevToken retryCount).setCalls ≤ retryCount + 1 ∧
    (lockFn gen gw cancel prevToken retryCount).sleeps ≤ retryCount := by
  unfold lockFn
  by_cases hp : prevToken = ""
  · rw [if_pos hp]
    cases gen with
    | error e => exact ⟨by dsimp only; omega, by dsimp only; omega⟩
    | ok t => exact lockLoop_calls_le gw cancel t prevToken retryCount
  · rw [if_neg hp]
    exact lockLoop_calls_le gw cancel prevToken prevToken retryCount

/-- C2 counterexample: a handle holding token `"T"` retries once
against a contended gateway; the cancellation signal fires during the
sleep.  `Lock()` returns `(false, 42, none)` — a failed acquire with no
error — yet the stored token is still `"T"`, not cleared. -/
theorem lock_fail_token_cleared_cex :
    (lockFn (E := Nat) (Except.ok "fresh") (fun _ => ⟨false, 42, none⟩)
      (fun _ => true) "T" 1).ok = false ∧
    (lockFn (E := Nat) (Except.ok "fresh") (fun _ => ⟨false, 42, none⟩)
      (fun _ => true) "T" 1).err = none ∧
    (lockFn (E := Nat) (Except.ok "fresh") (fun _ => ⟨false, 42, none⟩)
      (fun _ => true) "T" 1).token = "T" ∧
    (lockFn (E := Nat) (Except.ok "fresh") (fun _ => ⟨false, 42, none⟩)
      (fun _ => true) "T" 1).token ≠ "" := by
  decide

/-- C2 amended: when `Lock.Lock()` returns `success = false` with no
error and the cancellation signal never fired, the return is the
retry-exhaustion return and the stored token is empty afterwards.  (On
the cancellation return the source leaves the stored token as it was at
entry, as the counterexample shows.) -/
theorem lock_exhaustion_clears_token {E : Type} (gen : Except E String)
    (gw : Nat → SetResult E) (cancel : Nat → Bool) (prevToken : String)
    (retryCount : Nat) (hcancel : ∀ n, cancel n = false)
    (hok : (lockFn gen gw cancel prevToken retryCount).ok = false)
    (herr : (lockFn gen gw cancel prevToken retryCount).err = none) :
    (lockFn gen gw cancel prevToken retryCount).token = "" := by
  unfold lockFn at hok herr ⊢
  by_cases hp : prevToken = ""
  · rw [if_pos hp] at hok herr ⊢
    cases gen with
    | error e => simp at herr
    | ok t =>
      exact lockLoop_exhaustion_token gw cancel t prevToken retryCount
        hcancel hok herr
  · rw [if_neg hp] at hok herr ⊢
    exact lockLoop_exhaustion_token gw cancel prevToken prevToken
      retryCount hcancel hok herr

/-- Witness for the amended C2: a held token `"T"`, two retries, steady
contention, no cancellation; after exhaustion the stored token is
empty. -/
theorem lock_exhaustion_clears_token_witness :
    (lockFn (E := Nat) (Except.ok "fresh") (fun _ => ⟨false, 42, none⟩)
      (fun _ => false) "T" 2).token = "" := by
  exact lock_exhaustion_clears_token (Except.ok "fresh")
    (fun _ => ⟨false, 42, none⟩) (fun _ => false) "T" 2
    (fun _ => rfl) (by decide) (by decide)

/-- C7: if `gateway.Set` errors on attempt `k` (after `k` contention
attempts with no cancellation, `k ≤ retryCount`), `Lock.Lock()` returns
`(false, reported_ttl, that error)` immediately: exactly `k + 1` set
calls and `k` sleeps, the error verbatim, and no success. -/
theorem lock_error_immediate_return {E : Type} (t : String)
    (gw : Nat → SetResult E) (cancel : Nat → Bool) (prevToken : String)
    (retryCount k : Nat) (e : E) (hk : k ≤ retryCount)
    (hpre : ∀ j, j < k →
      (gw j).err = none ∧ (gw j).ok = false ∧ cancel j = false)
    (herr : (gw k).err = some e) :
    lockFn (Except.ok t) gw cancel prevToken retryCount =
      ⟨false, (gw k).ttl, some e, prevToken, k + 1, k⟩ := by
  unfold lockFn
  by_cases hp : prevToken = ""
  · rw [if_pos hp]
    exact lockLoop_error_run gw cancel t prevToken retryCount k e hk hpre herr
  · rw [if_neg hp]
    exact lockLoop_error_run gw cancel prevToken prevToken retryCount k e hk
      hpre herr

/-- Witness for C7: contention on attempt 0, an I/O error (code 99) on
attempt 1 with retry budget 1: the call returns the error after exactly
2 set calls and 1 sleep. -/
theorem lock_error_immediate_return_witness :
    lockFn (Except.ok "fresh")
      (fun n => if n = 0 then ⟨false, 42, none⟩ else ⟨false, 7, some 99⟩)
      (fun _ => false) "T" 1 =
      ⟨false, 7, some 99, "T", 2, 1⟩ := by
  have h := lock_error_immediate_return (E := Nat) "fresh"
    (fun n => if n = 0 then ⟨false, 42, none⟩ else ⟨false, 7, some 99⟩)
    (fun _ => false) "T" 1 1 99 (by decide) (by decide) (by decide)
  simpa using h

/-- C10: if `Lock.Lock()` returns a non-nil error — from the token
generator or from `gateway.Set` — the stored token field of the handle is
exactly what it was before the call. -/
theorem lock_error_frames_token {E : Type} (gen : Except E String)
    (gw : Nat → SetResult E) (cancel : Nat → Bool) (prevToken : String)
    (retryCount : Nat) (e : E)
    (herr : (lockFn gen gw cancel prevToken retryCount).err = some e) :
    (lockFn gen gw cancel prevToken retryCount).token = prevToken := by
  unfold lockFn at herr ⊢
  by_cases hp : prevToken = ""
  · rw [if_pos hp] at herr ⊢
    cases gen with
    | error e2 => rfl
    | ok t =>
      exact lockLoop_err_token gw cancel t prevToken retryCount
        (by rw [herr]; rfl)
  · rw [if_neg hp] at herr ⊢
    exact lockLoop_err_token gw cancel prevToken prevToken retryCount
      (by rw [herr]; rfl)

/-- Witness for C10: a held token `"T"` and a gateway erroring at the
first attempt; the stored token is still `"T"` after the failed call. -/
theorem lock_error_frames_token_witness :
    (lockFn (E := Nat) (Except.ok "fresh") (fun _ => ⟨false, 7, some 99⟩)
      (fun _ => false) "T" 3).token = "T" := by
  exact lock_error_frames_token (Except.ok "fresh")
    (fun _ => ⟨false, 7, some 99⟩) (fun _ => false) "T" 3 99 (by decide)

/-- C6: `Unlock` on an empty stored token returns `(false, ok)` with no
gateway call; on a stored token it returns exactly the reply of
`Del(key, token)` reply after one call, and in every case the stored
token is empty afterwards. -/
theorem unlock_contract {E : Type} (del : String → String → Bool × Option E)
    (key prevToken : String) :
    (prevToken = "" →
      unlockFn del key prevToken = ((false, none), prevToken, 0)) ∧
    (prevToken ≠ "" →
      unlockFn del key prevToken = (del key prevToken, "", 1)) ∧
    (unlockFn del key prevToken).2.1 = "" := by
  refine ⟨?_, ?_, ?_⟩
  · intro hp; unfold unlockFn; rw [if_pos hp]
  · intro hp; unfold unlockFn; rw [if_neg hp]
  · unfold unlockFn
    by_cases hp : prevToken = ""
    · rw [if_pos hp]; simpa using hp
    · rw [if_neg hp]

/-- Witness for C6: both branches on a concrete gateway reply. -/
theorem unlock_contract_witness :
    unlockFn (E := Nat) (fun _ _ => (true, none)) "k" "" =
      ((false, none), "", 0) ∧
    unlockFn (E := Nat) (fun _ _ => (true, none)) "k" "T" =
      ((true, none), "", 1) := by
  constructor
  · exact (unlock_contract (E := Nat) (fun _ _ => (true, none)) "k" "").1 rfl
  · exact (unlock_contract (E := Nat) (fun _ _ => (true, none)) "k" "T").2.1
      (by decide)


/-! ## Theorems about the retry delay and the Redis gateway -/

/-- C8: for `retry_delay = D` and `retry_jitter = J` with `0 ≤ J ≤ D`
(as configuration validation enforces), every delay produced by
`newDelay` lies in `[max 0 (D − J), D + J]`, and when `J = 0` the
delay equals `D` exactly, for every random draw. -/
theorem newDelay_jitter_range (D J : Int) (u : Nat)
    (h0 : 0 ≤ J) (hJD : J ≤ D) :
    max 0 (D - J) ≤ newDelay D J u ∧ newDelay D J u ≤ D + J ∧
    (J = 0 → newDelay D J u = D) := by
  rw [max_eq_right (show (0:Int) ≤ D - J by omega)]
  by_cases hz : J = 0
  · subst hz
    unfold newDelay
    rw [if_pos rfl]
    exact ⟨by omega, by omega, fun _ => rfl⟩
  · unfold newDelay
    rw [if_neg hz, if_neg (by omega)]
    unfold rndIntn
    have h1 : 0 ≤ (u : Int) % ((D + J) - (D - J) + 1) :=
      Int.emod_nonneg (u : Int) (by omega)
    have h2 : (u : Int) % ((D + J) - (D - J) + 1) < (D + J) - (D - J) + 1 :=
      Int.emod_lt_of_pos (u : Int) (by omega)
    exact ⟨by omega, by omega, fun hc => absurd hc hz⟩

/-- Witness for C8: delay 20 and jitter 10 at draw 7, and jitter 0 at
draw 7. -/
theorem newDelay_jitter_range_witness :
    max 0 ((20:Int) - 10) ≤ newDelay 20 10 7 ∧ newDelay 20 10 7 ≤ 20 + 10 ∧
    newDelay 20 0 7 = 20 := by
  refine ⟨(newDelay_jitter_range 20 10 7 (by decide) (by decide)).1,
    (newDelay_jitter_range 20 10 7 (by decide) (by decide)).2.1,
    (newDelay_jitter_range 20 0 7 (by decide) (by decide)).2.2 rfl⟩

/-- C9: the Redis gateway classifies the script result as: the
sentinel `-2` (installed or refreshed) gives `(true, ttl, ok)`; a
positive integer `t` gives `(false, t, ok)`; `-1` gives
ErrKeyNameClash; any non-integer gives ErrInvalidResponse. -/
theorem redis_set_classification (ttl : Int) :
    redisSetClassify ttl (.int (-2)) = .ok (true, ttl) ∧
    (∀ t : Int, 0 < t → redisSetClassify ttl (.int t) = .ok (false, t)) ∧
    redisSetClassify ttl (.int (-1)) = .error .keyNameClash ∧
    (∀ s, redisSetClassify ttl (.str s) = .error .invalidResponse) ∧
    redisSetClassify ttl .nil = .error .invalidResponse := by
  refine ⟨rfl, ?_, rfl, fun s => rfl, rfl⟩
  intro t ht
  unfold redisSetClassify
  dsimp only
  rw [if_neg (by omega), if_neg (by omega)]

/-- Witness for C9: all four classes at concrete inputs. -/
theorem redis_set_classification_witness :
    redisSetClassify 100 (.int 42) = .ok (false, 42) ∧
    redisSetClassify 100 (.int (-2)) = .ok (true, 100) ∧
    redisSetClassify 100 (.int (-1)) = .error .keyNameClash ∧
    redisSetClassify 100 (.str "x") = .error .invalidResponse := by
  exact ⟨(redis_set_classification 100).2.1 42 (by decide),
    (redis_set_classification 100).1,
    (redis_set_classification 100).2.2.1,
    (redis_set_classification 100).2.2.2.1 "x"⟩


end GoLocker
